import Mathlib

/-!
# Verification model of `convert_videos_for_plex.py`

A shallow embedding of the batch video transcoder in
`src/convert_videos_for_plex.py`.  Pure Python functions become Lean
functions; the stateful `Converter.convert` loop becomes explicit state
passing over an abstract filesystem.  External collaborators are modelled
as oracles supplied per call:

* the media probe (`pymediainfo.MediaInfo.parse`) is a `ProbeOutcome`
  (either a `RuntimeError` from the library, or a possibly-empty list of
  video tracks, of which the code only reads the first);
* the external encoder (`HandBrakeCLI` via `subprocess.run`) is an
  `EncOutcome`: normal completion with an output size and a measured
  elapsed wall-clock time, a `subprocess.CalledProcessError`, or any
  other exception raised by the invocation (e.g. a process-launch error);
  the failure cases carry a flag saying whether a (partial) output file
  was written before the failure;
* the filesystem is an association list of entries (path, size, mtime);
* console messages (printed with `COLOR.write`, which prefixes an ANSI
  color and a timestamp) are modelled structurally by the `Msg` type and
  the `Skip` type, which record which message was produced with its
  data payloads, abstracting the color/timestamp decoration.

`Converter.get_handbrake_command` (external tool resolution, performed
once before the loop) and the audio/subtitle argument lists (which only
affect the encoder's argument vector, not any modelled behavior) are
outside the scope of the modelled claims and are not embedded.
-/

deriving instance DecidableEq for Except

namespace CVFP

/-- A filesystem path, modelled after the `pathlib.Path` operations the
source uses: `with_suffix` replaces `ext`, `.name` is `stem ++ "." ++ ext`,
`Path(dir, name)` rebuilds from a directory and a name. -/
structure FPath where
  dir : String
  stem : String
  ext : String
deriving DecidableEq

/-- `Path.with_suffix('.e')`: same directory and stem, new extension. -/
def FPath.withSuffix (p : FPath) (e : String) : FPath :=
  { p with ext := e }

/-- `Path.name`: final component. -/
def FPath.name (p : FPath) : String :=
  p.stem ++ "." ++ p.ext

/-- Full textual form of a path (used by `File.__lt__`, which compares
`str(self.source)`). -/
def FPath.str (p : FPath) : String :=
  p.dir ++ "/" ++ p.stem ++ "." ++ p.ext

/-- One existing filesystem object: its path, its `st_size` and its
`st_mtime`. -/
structure Entry where
  path : FPath
  size : Nat
  mtime : Nat
deriving DecidableEq

/-- The filesystem: the list of existing entries (no duplicate paths in
well-formed states; operations below preserve that). -/
abbrev FS := List Entry

/-- `Path.exists()`. -/
def fsExists (fs : FS) (p : FPath) : Bool :=
  fs.any (fun e => e.path = p)

/-- `Path.stat().st_size` (0 if the path is absent; the source only stats
paths that exist). -/
def fsStatSize (fs : FS) (p : FPath) : Nat :=
  ((fs.find? (fun e => e.path = p)).map Entry.size).getD 0

/-- `Path.stat().st_mtime`. -/
def fsStatMtime (fs : FS) (p : FPath) : Nat :=
  ((fs.find? (fun e => e.path = p)).map Entry.mtime).getD 0

/-- `Path.unlink()`. -/
def fsUnlink (fs : FS) (p : FPath) : FS :=
  fs.filter (fun e => e.path ≠ p)

/-- The filesystem effect of `Path.touch()` with `exist_ok=True` (the
default, which the source uses): create an empty file if absent, update
the mtime (not modelled) if present. -/
def fsTouch (fs : FS) (p : FPath) : FS :=
  if fsExists fs p then fs else fs ++ [⟨p, 0, 0⟩]

/-- `pathlib.Path.touch(exist_ok)`: raises `FileExistsError` if the path
exists and `exist_ok` is `False`; otherwise succeeds. -/
def pathTouch (existOk : Bool) (fs : FS) (p : FPath) : Except Unit FS :=
  if fsExists fs p then
    if existOk then .ok fs else .error ()
  else .ok (fs ++ [⟨p, 0, 0⟩])

/-- `shutil.copy2(src, dst)`: dst becomes a copy of src (size and mtime
preserved), overwriting dst if present. -/
def fsCopy2 (fs : FS) (src dst : FPath) : FS :=
  fsUnlink fs dst ++ [⟨dst, fsStatSize fs src, fsStatMtime fs src⟩]

/-- The filesystem effect of the encoder writing its output file. -/
def fsWrite (fs : FS) (p : FPath) (sz : Nat) : FS :=
  fsUnlink fs p ++ [⟨p, sz, 0⟩]

/-- One video track descriptor as exposed by the media probe: `format`,
`format_profile` and `duration` in milliseconds (which may be `None`). -/
structure Track where
  format : String
  profile : String
  durationMs : Option ℚ
deriving DecidableEq

/-- Outcome of `MediaInfo.parse` on a source file: the library raising
`RuntimeError`, or a parse whose `video_tracks` list is empty (`none`)
or has a first element (`some t`; the source only reads index 0). -/
inductive ProbeOutcome where
  | parseError
  | tracks (t : Option Track)
deriving DecidableEq

/-- The `File.skip` field: the empty string, or one of the messages the
source assigns to it, with their data payloads (the color/timestamp
decoration of `COLOR.write` is abstracted). -/
inductive Skip where
  | none
  | overwriting (destName : String)
  | alreadyExists (destName : String)
  | missingInfo (sourceName : String)
  | alreadyRequested (format profile : String)
deriving DecidableEq

/-- Python truthiness of the `skip` string. -/
def Skip.isSet : Skip → Bool
  | .none => false
  | _ => true

/-- `MILLISEC_TO_MIN` from the source. -/
def MILLISEC_TO_MIN : ℚ := 60000

/-- The run configuration: the fields `Converter.__init__` stores.
(The constructor's defaulting of `extensions` and `exclude` when empty is
applied by `Converter.init`.) -/
structure Converter where
  input : String
  output : Option String
  workspace : Option String
  run : Bool
  delete_original : Bool
  force : Bool
  audio_track : Nat
  subtitle_track : Nat
  preset : String
  sort_type : String
  sort_direction : String
  extensions : List String
  exclude : List String
  stop_larger : Bool
deriving DecidableEq

/-- The defaulting `Converter.__init__` performs on `extensions` and
`exclude` when they are empty/absent. -/
def Converter.init (c : Converter) : Converter :=
  let c := if c.extensions.isEmpty then
    { c with extensions := ["avi", "mkv", "iso", "img", "mp4", "m4v", "ts"] }
  else c
  c

/-- The `File` object: source path, derived destination path, the skip
message, the run decision, and the probed metadata.  The `media_info`
cache is not a field: probing is modelled by a deterministic oracle, so
caching is observationally irrelevant. -/
structure File where
  source : FPath
  dest : FPath
  skip : Skip
  run : Bool
  format : String
  profile : String
  duration : ℚ
  duration_min : ℤ
deriving DecidableEq

/-- `File.__init__`: dest is the source with suffix `.mp4`, relocated
under the output root when one is configured. -/
def File.init (c : Converter) (source : FPath) : File :=
  let dest := source.withSuffix "mp4"
  let dest := match c.output with
    | some o => { dir := o, stem := dest.stem, ext := dest.ext }
    | Option.none => dest
  { source := source, dest := dest, skip := .none, run := false,
    format := "", profile := "", duration := 0, duration_min := 0 }

/-- `File.name`. -/
def File.name (f : File) : String :=
  f.source.name

/-- `File.check_output_exists`. -/
def File.check_output_exists (fs : FS) (c : Converter) (f : File) : File :=
  if f.skip.isSet then f
  else if fsExists fs f.dest then
    if c.force then { f with skip := .overwriting f.dest.name }
    else { f with skip := .alreadyExists f.dest.name }
  else f

/-- `File.get_duration` (given the first video track of the parse):
duration in minutes, and the 10-minute ceiling bucket. -/
def File.get_duration (t : Track) (f : File) : File :=
  if f.duration ≠ 0 then f
  else
    let d := (t.durationMs.getD 0) / MILLISEC_TO_MIN
    { f with duration := d, duration_min := ⌈d / 10⌉ * 10 }

/-- `File.check_media_info`: `.error` is the `RuntimeError` that
`MediaInfo.parse` may raise (caught by the caller in `convert`). -/
def File.check_media_info (preset : String) (pr : ProbeOutcome) (f : File) : Except Unit File :=
  if f.skip.isSet then .ok f
  else match pr with
  | .parseError => .error ()
  | .tracks Option.none => .ok { f with skip := .missingInfo f.name }
  | .tracks (some t) =>
    let f := { f with format := t.format, profile := t.profile }
    let f := if f.duration_min = (0 : ℤ) then f.get_duration t else f
    let f :=
      if (preset = "H.265 VCN 1080p" ∧ f.format = "HEVC")
          ∨ (preset = "Fast 1080p30" ∧ f.format = "AVC") then f
      else { f with run := true }
    .ok (if f.run then f else { f with skip := .alreadyRequested f.format f.profile })

/-- The run decision of a `check_media_info` result, `none` on the
`RuntimeError` outcome. -/
def runOf : Except Unit File → Option Bool
  | .ok f => some f.run
  | .error _ => Option.none

/-- The skip field of a `check_media_info` result. -/
def skipOf : Except Unit File → Option Skip
  | .ok f => some f.skip
  | .error _ => Option.none

/-- `statistics.mean` on rationals (the source never calls it on an empty
list; `0` there is junk). -/
def mean (l : List ℚ) : ℚ :=
  l.sum / l.length

/-- Python `int()` on a number: truncation toward zero. -/
def intTrunc (q : ℚ) : ℤ :=
  if 0 ≤ q then ⌊q⌋ else ⌈q⌉

/-- Python `f'{n:02}'`: decimal rendering left-padded with `0` to width
2 (a sign counts toward the width). -/
def pad2 (n : ℤ) : String :=
  let s := toString n
  if s.length < 2 then "0" ++ s else s

/-- `Converter.calc_time`: `seconds = int(seconds)`, `minutes = seconds
// 60`, `hours = seconds // 3600`, rendered `f'{hours:02}H {minutes:02}M'`
(`//` is Python floor division). -/
def Converter.calc_time (q : ℚ) : String :=
  let seconds := intTrunc q
  let minutes := seconds.fdiv 60
  let hours := seconds.fdiv 3600
  pad2 hours ++ "H " ++ pad2 minutes ++ "M"

/-- The `time_avg` dictionary: duration bucket → list of elapsed times,
as an association list with unique keys (dict iteration order = insertion
order, matched by `List.lookup` on the unique-key lists the updates
below produce). -/
abbrev TimeAvg := List (ℤ × List ℚ)

/-- Lines 276-279 of the source: `time_avg[duration].append(time)` with
`KeyError` fallback `time_avg[duration] = [time]`. -/
def timeAvgAdd (ta : TimeAvg) (d : ℤ) (t : ℚ) : TimeAvg :=
  match ta.lookup d with
  | some _ => ta.map (fun kv => if kv.1 = d then (kv.1, kv.2 ++ [t]) else kv)
  | Option.none => ta ++ [(d, [t])]

/-- Lines 229-238 of the source: the queue ETA, `none` when the message
stays the empty string.  Only computed (and shown) when at least two
global elapsed times have been recorded; the representative bucket is the
10-minute ceiling of the mean of the recorded durations, its average
falling back to the global mean when that bucket is absent from
`time_avg`; `count - i` uses the 0-based loop index. -/
def queueEta (ta : TimeAvg) (qTimes qDurations : List ℚ) (count i : Nat) : Option String :=
  if 2 ≤ qTimes.length then
    let duration : ℤ := ⌈mean qDurations / 10⌉ * 10
    let avg := match ta.lookup duration with
      | some l => mean l
      | Option.none => mean qTimes
    some (Converter.calc_time (avg * ((count - i : Nat) : ℚ)))
  else Option.none

/-- Lines 252-255 of the source: the per-item ETA, shown only when the
current file's duration bucket holds at least two recorded elapsed
times (`time_avg.get(duration, [])`). -/
def itemEta (ta : TimeAvg) (duration : ℤ) : Option String :=
  if 2 ≤ ((ta.lookup duration).getD []).length then
    some (Converter.calc_time (mean ((ta.lookup duration).getD [])))
  else Option.none

/-- Console messages the convert loop prints, with their data payloads
(decoration abstracted, cf. the header comment). -/
inductive Msg where
  | skipMsg (s : Skip)
  | lockExistsMsg (name : String)
  | checking (i count : Nat) (name : String) (eta : Option String)
  | probeError
  | transcoding (src dst : String) (eta : Option String)
  | copyToWorkspace (name ws : String)
  | copyFromWorkspace (tmpOut dst : String)
  | encoderFailed (returncode : Int) (stderr : String)
  | transcoded (time : String) (name : String) (origSize newSize : Nat)
  | stopLargerMsg
  | transcodedDryRun (name : String)
deriving DecidableEq

/-- Outcome of the `subprocess.run([command, ...], capture_output=True,
check=True)` encoder invocation:
* `ok elapsed outSize`: exit code 0; the output file was written with
  `outSize` bytes and the call took `elapsed` seconds of wall time;
* `calledProcessError`: non-zero exit (`check=True` raises
  `subprocess.CalledProcessError`); `wroteOutput` says whether a partial
  output file (of size `outSize`) was left behind;
* `otherException`: any other exception from the invocation (e.g. a
  process-launch `OSError`), with the same partial-output flag. -/
inductive EncOutcome where
  | ok (elapsed : ℚ) (outSize : Nat)
  | calledProcessError (returncode : Int) (stderr : String) (wroteOutput : Bool) (outSize : Nat)
  | otherException (wroteOutput : Bool) (outSize : Nat)
deriving DecidableEq

/-- The mutable state of `Converter.convert`: the filesystem, the two ETA
histories, the queue data, the messages printed so far (in order), and a
count of encoder invocations (an observation point for "the external
encoder was invoked", not a program variable). -/
structure LoopState where
  fs : FS
  time_avg : TimeAvg
  queueTimes : List ℚ
  queueDurations : List ℚ
  msgs : List Msg
  encoderCalls : Nat
deriving DecidableEq

/-- How one iteration of the `for` loop in `Converter.convert` ends:
fall through / `continue` to the next file, `break`, or an exception
propagating out of the loop. -/
inductive StepExit where
  | nextFile
  | broke
  | raised
deriving DecidableEq

/-- Append a message. -/
def LoopState.say (st : LoopState) (m : Msg) : LoopState :=
  { st with msgs := st.msgs ++ [m] }

/-- The `with LockFile(file) as lock:` epilogue: `__exit__` unlinks the
lock file iff this instance touched it.  Applied on every exit from the
block body — normal fall-through, `continue`, `break`, and exception
unwind alike. -/
def lockExit (touched : Bool) (lockPath : FPath) (st : LoopState) : LoopState :=
  if touched then { st with fs := fsUnlink st.fs lockPath } else st

/-- The body of the `with LockFile(...)` block (lines 229-299 of the
source), entered after the lock-exists check; `i` is the 0-based loop
index.  Returns the state and how the iteration ends; the caller applies
`lockExit` to whatever comes out. -/
def Converter.convert_body (c : Converter) (pr : ProbeOutcome) (enc : EncOutcome)
    (count i : Nat) (file : File) (st : LoopState) : LoopState × StepExit :=
  let eta := queueEta st.time_avg st.queueTimes st.queueDurations count i
  let st := st.say (.checking (i + 1) count file.name eta)
  let file := file.check_output_exists st.fs c
  if file.skip.isSet ∧ ¬c.force then
    (st.say (.skipMsg file.skip), .nextFile)
  else
    let newFile := file.dest
    match file.check_media_info c.preset pr with
    | .error _ => (st.say .probeError, .nextFile)
    | .ok file =>
      if file.run then
        let eta2 := itemEta st.time_avg file.duration_min
        let st := st.say (.transcoding file.name newFile.name eta2)
        if c.run then
          let tmp := file.source
          let tmpOut := newFile
          let (st, tmp, tmpOut) := match c.workspace with
            | some ws =>
              let tmpOut : FPath := { dir := ws, stem := tmpOut.stem, ext := tmpOut.ext }
              let tmp : FPath := { dir := ws, stem := file.source.stem, ext := file.source.ext }
              (({ st with fs := fsCopy2 st.fs file.source tmp }).say
                  (.copyToWorkspace file.name ws),
               tmp, tmpOut)
            | Option.none => (st, tmp, tmpOut)
          let st := { st with encoderCalls := st.encoderCalls + 1 }
          match enc with
          | .otherException wrote outSize =>
            let st := if wrote then { st with fs := fsWrite st.fs tmpOut outSize } else st
            let st := if fsExists st.fs file.dest then
                { st with fs := fsUnlink st.fs file.dest } else st
            (st, .raised)
          | .calledProcessError rc stderr wrote outSize =>
            let st := if wrote then { st with fs := fsWrite st.fs tmpOut outSize } else st
            let st := if fsExists st.fs file.dest then
                { st with fs := fsUnlink st.fs file.dest } else st
            (st.say (.encoderFailed rc stderr), .nextFile)
          | .ok elapsed outSize =>
            let st := { st with fs := fsWrite st.fs tmpOut outSize }
            let st := { st with
              time_avg := timeAvgAdd st.time_avg file.duration_min elapsed,
              queueTimes := st.queueTimes ++ [elapsed],
              queueDurations := st.queueDurations ++ [file.duration] }
            let st := match c.workspace with
              | some _ =>
                let st := st.say (.copyFromWorkspace tmpOut.name newFile.name)
                let st := { st with fs := fsCopy2 st.fs tmpOut newFile }
                { st with fs := fsUnlink (fsUnlink st.fs tmp) tmpOut }
              | Option.none => st
            let original_size := fsStatSize st.fs file.source
            let new_size := fsStatSize st.fs newFile
            let st := st.say (.transcoded (Converter.calc_time elapsed) newFile.name
                original_size new_size)
            if c.stop_larger ∧ new_size > original_size then
              (({ st with fs := fsUnlink st.fs file.dest }).say .stopLargerMsg, .broke)
            else
              let st := if c.delete_original then
                  { st with fs := fsUnlink st.fs file.source } else st
              (st, .nextFile)
        else
          (st.say (.transcodedDryRun newFile.name), .nextFile)
      else if file.skip.isSet then
        (st.say (.skipMsg file.skip), .nextFile)
      else (st, .nextFile)

/-- One iteration of the `for i, file in enumerate(files)` loop in
`Converter.convert` (lines 220-299): the pre-lock skip check, the
lock-exists check, `lock.touch()` when transcoding for real, then
`convert_body` wrapped in the `with`-epilogue `lockExit`. -/
def Converter.convert_step (c : Converter) (pr : ProbeOutcome) (enc : EncOutcome)
    (count i : Nat) (file : File) (st : LoopState) : LoopState × StepExit :=
  if file.skip.isSet ∧ ¬c.force then
    (st.say (.skipMsg file.skip), .nextFile)
  else
    let lockPath := file.source.withSuffix "lock"
    if fsExists st.fs lockPath then
      (st.say (.lockExistsMsg file.name), .nextFile)
    else
      let touched := c.run
      let st := if c.run then { st with fs := fsTouch st.fs lockPath } else st
      let r := Converter.convert_body c pr enc count i file st
      (lockExit touched lockPath r.1, r.2)

/-- How the whole loop ends: the file list exhausted, `break` (the
`stop_larger` stop), or an exception propagating out of `convert`. -/
inductive LoopExit where
  | finished
  | stopped
  | raisedExit
deriving DecidableEq

/-- The `for` loop of `Converter.convert`, driven by per-file probe and
encoder oracle outcomes paired with each file. -/
def Converter.convert_loop (c : Converter) (count : Nat) :
    Nat → LoopState → List (File × ProbeOutcome × EncOutcome) → LoopState × LoopExit
  | _, st, [] => (st, .finished)
  | i, st, (file, pr, enc) :: rest =>
    match Converter.convert_step c pr enc count i file st with
    | (st', .nextFile) => Converter.convert_loop c count (i + 1) st' rest
    | (st', .broke) => (st', .stopped)
    | (st', .raised) => (st', .raisedExit)

/-- The extension list hardcoded in `Converter.get_files` (line 149);
note it is not `self.extensions`. -/
def hardcodedExts : List String := ["avi", "mkv", "iso", "img", "m4v", "ts"]

/-- Whether a directory lies in the subtree of `root` (the `**/` part of
`root.glob('**/*.ext')`). -/
def underDir (root dir : String) : Bool :=
  dir = root ∨ List.isPrefixOf (root ++ "/").toList dir.toList

/-- `self.input.glob(f'**/*.{ext}')`: the existing files under the input
root with the given extension, in filesystem (entry-list) order. -/
def globExt (c : Converter) (fs : FS) (ext : String) : List FPath :=
  (fs.filter (fun e => e.path.ext = ext ∧ underDir c.input e.path.dir)).map Entry.path

/-- Lexicographic comparison of character lists by code point — the
comparison Python's `<` performs on strings.  (Defined structurally
rather than through core's `String.lt` decidability, whose byte-level
loops do not reduce; on `toList` the two orders agree.) -/
def charsLt : List Char → List Char → Bool
  | [], [] => false
  | [], _ :: _ => true
  | _ :: _, [] => false
  | a :: as, b :: bs => if a < b then true else if b < a then false else charsLt as bs

/-- Python `a < b` on strings. -/
def strLt (a b : String) : Bool :=
  charsLt a.toList b.toList

/-- Python `a <= b` on strings (a total order, so `a ≤ b ↔ ¬ b < a`). -/
def strLe (a b : String) : Bool :=
  !strLt b a

/-- A stable insertion into a sorted list: `x` goes after every `y` with
`le y x` (so ties keep their original relative order). -/
def insertStable (le : File → File → Bool) (x : File) : List File → List File
  | [] => [x]
  | y :: ys => if le y x then y :: insertStable le x ys else x :: y :: ys

/-- A stable sort (Python's `sorted` is stable; `reverse=True` reverses
the comparison, not the tie order). -/
def sortStable (le : File → File → Bool) (l : List File) : List File :=
  l.foldl (fun acc x => insertStable le x acc) []

/-- The scan part of `Converter.get_files` (lines 148-164): for each of
the six hardcoded extensions, glob under the input root, build a `File`,
run the destination pre-check, and drop files with a skip message unless
`force` is set.  `self.extensions` and `self.exclude` are never
consulted. -/
def Converter.get_files_unsorted (c : Converter) (fs : FS) : List File :=
  hardcodedExts.foldl (fun acc ext =>
    (globExt c fs ext).foldl (fun acc2 source =>
      let file := (File.init c source).check_output_exists fs c
      if ¬c.force ∧ file.skip.isSet then acc2 else acc2 ++ [file]) acc) []

/-- `Converter.get_files` (lines 147-174): scan, then sort by the
configured key and direction (`sorted` is stable; `reverse` flips the
comparison, not the tie order; the fallthrough uses `File.__lt__`, a
string comparison of the source paths).  Sorting by duration probes every
file up front (`MediaInfo.parse` inside `File.get_duration`); a probe
`RuntimeError`, or an empty `video_tracks` list (an `IndexError` at
`video_tracks[0]`), crashes `get_files`, modelled by `.error`. -/
def Converter.get_files (c : Converter) (fs : FS) (probe : FPath → ProbeOutcome) :
    Except Unit (List File) :=
  let files := c.get_files_unsorted fs
  let desc := c.sort_direction = "DESC"
  match c.sort_type with
  | "Name" =>
    .ok (sortStable (fun a b =>
      if desc then strLe b.name a.name else strLe a.name b.name) files)
  | "Duration" =>
    if files.all (fun f => match probe f.source with
        | .tracks (some _) => true
        | _ => false) then
      let files := files.map (fun f => match probe f.source with
        | .tracks (some t) => f.get_duration t
        | _ => f)
      .ok (sortStable (fun a b =>
        if desc then decide (b.duration ≤ a.duration)
        else decide (a.duration ≤ b.duration)) files)
    else .error ()
  | "Filesize" =>
    .ok (sortStable (fun a b =>
      if desc then decide (fsStatSize fs b.source ≤ fsStatSize fs a.source)
      else decide (fsStatSize fs a.source ≤ fsStatSize fs b.source)) files)
  | "Modified" =>
    .ok (sortStable (fun a b =>
      if desc then decide (fsStatMtime fs b.source ≤ fsStatMtime fs a.source)
      else decide (fsStatMtime fs a.source ≤ fsStatMtime fs b.source)) files)
  | _ =>
    .ok (sortStable (fun a b => !strLt b.source.str a.source.str) files)

/-- The loop state at the start of `Converter.convert`. -/
def initState (fs : FS) : LoopState :=
  { fs := fs, time_avg := [], queueTimes := [], queueDurations := [],
    msgs := [], encoderCalls := 0 }

/-- `Converter.convert` end to end: scan and sort, then run the loop,
pairing each file with its probe outcome and its encoder outcome (both
oracles keyed by source path). -/
def Converter.convert (c : Converter) (fs : FS) (probe : FPath → ProbeOutcome)
    (encOf : FPath → EncOutcome) : Except Unit (LoopState × LoopExit) :=
  (c.get_files fs probe).map (fun files =>
    Converter.convert_loop c files.length 0 (initState fs)
      (files.map (fun f => (f, probe f.source, encOf f.source))))

/-- Distinctness of the paths a file's processing manipulates, used as a
hypothesis of the loop theorems: the destination, the source and the
derived lock path are pairwise distinct, and the workspace (when
configured) is a different directory from the source's and the
destination's.  Every file the scanner builds from a source
`dir/stem.ext` with `ext ≠ "mp4"` and `ext ≠ "lock"` satisfies the first
three conjuncts by construction. -/
def pathsOk (c : Converter) (f : File) : Bool :=
  decide (f.dest ≠ f.source)
    && decide (f.source.withSuffix "lock" ≠ f.source)
    && decide (f.source.withSuffix "lock" ≠ f.dest)
    && match c.workspace with
      | some ws => decide (ws ≠ f.source.dir) && decide (ws ≠ f.dest.dir)
      | Option.none => true

/-- The elapsed-time formatter as the spec describes it, for comparison
with `Converter.calc_time`: whole days, then hours and minutes as the
remainders of the next-smaller unit, zero-valued leading units omitted,
minutes always shown. -/
def specCalcTime (s : Nat) : String :=
  let d := s / 86400
  let h := s % 86400 / 3600
  let m := s % 3600 / 60
  (if d ≠ 0 then toString d ++ "D " else "")
    ++ (if d ≠ 0 ∨ h ≠ 0 then toString h ++ "H " else "")
    ++ toString m ++ "M"

/-- A baseline run configuration for the concrete scenarios below:
transcode for real, default preset, no output/workspace relocation. -/
def exCfg : Converter :=
  { input := "in", output := Option.none, workspace := Option.none, run := true,
    delete_original := false, force := false, audio_track := 0, subtitle_track := 0,
    preset := "Fast 1080p30", sort_type := "Name", sort_direction := "ASC",
    extensions := [], exclude := [], stop_larger := false }

/-- Example source `in/a.mkv`. -/
def srcA : FPath := ⟨"in", "a", "mkv"⟩

/-- Example source `in/b.mkv`. -/
def srcB : FPath := ⟨"in", "b", "mkv"⟩

/-- An HEVC video track (10-minute duration). -/
def hevcTrack : Track := ⟨"HEVC", "Main@L4", some 600000⟩

/-- An AVC video track (10-minute duration). -/
def avcTrack : Track := ⟨"AVC", "Main@L4", some 600000⟩

/-- A probe oracle answering HEVC for every path. -/
def hevcProbe : FPath → ProbeOutcome := fun _ => .tracks (some hevcTrack)

/-- The baseline configuration with `force` set (for the C2 scenario). -/
def exCfgForce : Converter := { exCfg with force := true }

/-- A dry-run configuration that configures `extensions = ["mp4"]` and an
exclude pattern naming `in/sub/video.avi` exactly (for the C3 scenario). -/
def exCfgScan : Converter :=
  { exCfg with run := false, extensions := ["mp4"], exclude := ["in/sub/video.avi"] }

/-- The baseline configuration with the stop-if-larger policy enabled
(for the C5 scenario). -/
def exCfgStop : Converter := { exCfg with stop_larger := true }

section Lemmas

variable (fs : FS) (p q s d : FPath) (e : Entry) (sz : Nat)

theorem fsExists_append_entry :
    fsExists (fs ++ [e]) q = (fsExists fs q || decide (e.path = q)) := by
  simp [fsExists, List.any_append]

theorem fsUnlink_cons_of_eq (t : FS) (h : e.path = p) :
    fsUnlink (e :: t) p = fsUnlink t p := by
  simp [fsUnlink, List.filter_cons, h]

theorem fsUnlink_cons_of_ne (t : FS) (h : ¬e.path = p) :
    fsUnlink (e :: t) p = e :: fsUnlink t p := by
  simp [fsUnlink, List.filter_cons, h]

theorem fsExists_unlink_self : fsExists (fsUnlink fs p) p = false := by
  induction fs with
  | nil => rfl
  | cons e t ih =>
    by_cases h : e.path = p
    · rw [fsUnlink_cons_of_eq _ _ _ h, ih]
    · rw [fsUnlink_cons_of_ne _ _ _ h]
      simp only [fsExists, List.any_cons] at ih ⊢
      simp [h, ih]

theorem fsExists_unlink_ne (h : q ≠ p) :
    fsExists (fsUnlink fs p) q = fsExists fs q := by
  induction fs with
  | nil => rfl
  | cons e t ih =>
    by_cases hep : e.path = p
    · rw [fsUnlink_cons_of_eq _ _ _ hep]
      rw [ih]
      simp [fsExists, hep, (Ne.symm h)]
    · rw [fsUnlink_cons_of_ne _ _ _ hep]
      simp only [fsExists, List.any_cons] at ih ⊢
      rw [ih]

theorem fsExists_touch_self : fsExists (fsTouch fs p) p = true := by
  unfold fsTouch
  by_cases h : fsExists fs p = true
  · simp [h]
  · simp only [h]
    simp at h
    simp [h, fsExists_append_entry]

theorem fsExists_touch_ne (h : q ≠ p) :
    fsExists (fsTouch fs p) q = fsExists fs q := by
  unfold fsTouch
  split
  · rfl
  · simp [fsExists_append_entry, (Ne.symm h)]

theorem fsExists_write_self : fsExists (fsWrite fs p sz) p = true := by
  simp [fsWrite, fsExists_append_entry]

theorem fsExists_write_ne (h : q ≠ p) :
    fsExists (fsWrite fs p sz) q = fsExists fs q := by
  simp [fsWrite, fsExists_append_entry, (Ne.symm h), fsExists_unlink_ne _ _ _ h]

theorem fsExists_copy2_self : fsExists (fsCopy2 fs s d) d = true := by
  simp [fsCopy2, fsExists_append_entry]

theorem fsExists_copy2_ne (h : q ≠ d) :
    fsExists (fsCopy2 fs s d) q = fsExists fs q := by
  simp [fsCopy2, fsExists_append_entry, (Ne.symm h), fsExists_unlink_ne _ _ _ h]

theorem find?_unlink_self :
    (fsUnlink fs p).find? (fun e => e.path = p) = Option.none := by
  induction fs with
  | nil => rfl
  | cons e t ih =>
    by_cases h : e.path = p
    · rw [fsUnlink_cons_of_eq _ _ _ h, ih]
    · rw [fsUnlink_cons_of_ne _ _ _ h]
      simp [List.find?_cons, h, ih]

theorem find?_unlink_ne (h : q ≠ p) :
    (fsUnlink fs p).find? (fun e => e.path = q) = fs.find? (fun e => e.path = q) := by
  induction fs with
  | nil => rfl
  | cons e t ih =>
    by_cases hep : e.path = p
    · rw [fsUnlink_cons_of_eq _ _ _ hep]
      rw [ih]
      simp [List.find?_cons, hep, (Ne.symm h)]
    · rw [fsUnlink_cons_of_ne _ _ _ hep]
      simp [List.find?_cons, ih]

theorem fsStatSize_unlink_ne (h : q ≠ p) :
    fsStatSize (fsUnlink fs p) q = fsStatSize fs q := by
  simp [fsStatSize, find?_unlink_ne _ _ _ h]

theorem fsStatSize_append_entry_ne (h : e.path ≠ q) :
    fsStatSize (fs ++ [e]) q = fsStatSize fs q := by
  simp only [fsStatSize, List.find?_append]
  have : [e].find? (fun x => x.path = q) = Option.none := by
    simp [List.find?_cons, h]
  rw [this]
  cases fs.find? (fun x => x.path = q) <;> rfl

theorem fsStatSize_touch_ne (h : q ≠ p) :
    fsStatSize (fsTouch fs p) q = fsStatSize fs q := by
  unfold fsTouch
  split
  · rfl
  · exact fsStatSize_append_entry_ne _ _ _ (by simpa using Ne.symm h)

theorem fsStatSize_write_self : fsStatSize (fsWrite fs p sz) p = sz := by
  simp [fsStatSize, fsWrite, List.find?_append, find?_unlink_self, List.find?_cons]

theorem fsStatSize_write_ne (h : q ≠ p) :
    fsStatSize (fsWrite fs p sz) q = fsStatSize fs q := by
  unfold fsWrite
  rw [fsStatSize_append_entry_ne _ _ _ (by simpa using Ne.symm h)]
  exact fsStatSize_unlink_ne _ _ _ h

theorem fsStatSize_copy2_self : fsStatSize (fsCopy2 fs s d) d = fsStatSize fs s := by
  simp [fsStatSize, fsCopy2, List.find?_append, find?_unlink_self, List.find?_cons]

theorem fsStatSize_copy2_ne (h : q ≠ d) :
    fsStatSize (fsCopy2 fs s d) q = fsStatSize fs q := by
  unfold fsCopy2
  rw [fsStatSize_append_entry_ne _ _ _ (by simpa using Ne.symm h)]
  exact fsStatSize_unlink_ne _ _ _ h

end Lemmas

section FileLemmas

variable (t : Track) (f : File) (fs : FS) (c : Converter)

@[simp] theorem File.get_duration_source : (f.get_duration t).source = f.source := by
  unfold File.get_duration; split <;> rfl

@[simp] theorem File.get_duration_dest : (f.get_duration t).dest = f.dest := by
  unfold File.get_duration; split <;> rfl

@[simp] theorem File.get_duration_skip : (f.get_duration t).skip = f.skip := by
  unfold File.get_duration; split <;> rfl

@[simp] theorem File.get_duration_run : (f.get_duration t).run = f.run := by
  unfold File.get_duration; split <;> rfl

@[simp] theorem File.get_duration_format : (f.get_duration t).format = f.format := by
  unfold File.get_duration; split <;> rfl

@[simp] theorem File.get_duration_profile : (f.get_duration t).profile = f.profile := by
  unfold File.get_duration; split <;> rfl

@[simp] theorem File.check_output_exists_source :
    (f.check_output_exists fs c).source = f.source := by
  unfold File.check_output_exists; split
  · rfl
  · split
    · split <;> rfl
    · rfl

@[simp] theorem File.check_output_exists_dest :
    (f.check_output_exists fs c).dest = f.dest := by
  unfold File.check_output_exists; split
  · rfl
  · split
    · split <;> rfl
    · rfl

@[simp] theorem File.check_output_exists_run :
    (f.check_output_exists fs c).run = f.run := by
  unfold File.check_output_exists; split
  · rfl
  · split
    · split <;> rfl
    · rfl

@[simp] theorem LoopState.say_fs (st : LoopState) (m : Msg) : (st.say m).fs = st.fs := rfl

@[simp] theorem LoopState.say_time_avg (st : LoopState) (m : Msg) :
    (st.say m).time_avg = st.time_avg := rfl

@[simp] theorem LoopState.say_queueTimes (st : LoopState) (m : Msg) :
    (st.say m).queueTimes = st.queueTimes := rfl

@[simp] theorem LoopState.say_queueDurations (st : LoopState) (m : Msg) :
    (st.say m).queueDurations = st.queueDurations := rfl

@[simp] theorem LoopState.say_encoderCalls (st : LoopState) (m : Msg) :
    (st.say m).encoderCalls = st.encoderCalls := rfl

@[simp] theorem LoopState.say_msgs (st : LoopState) (m : Msg) :
    (st.say m).msgs = st.msgs ++ [m] := rfl

end FileLemmas

/-- Frame lemma for the `with`-block body in a dry run: when the run
flag is false, the body only prints — the filesystem, both ETA
histories, the queue data and the encoder-call count are untouched. -/
theorem convert_body_not_run (c : Converter) (hr : c.run = false) (pr : ProbeOutcome)
    (enc : EncOutcome) (count i : Nat) (file : File) (st : LoopState) :
    (Converter.convert_body c pr enc count i file st).1.fs = st.fs
    ∧ (Converter.convert_body c pr enc count i file st).1.time_avg = st.time_avg
    ∧ (Converter.convert_body c pr enc count i file st).1.queueTimes = st.queueTimes
    ∧ (Converter.convert_body c pr enc count i file st).1.queueDurations = st.queueDurations
    ∧ (Converter.convert_body c pr enc count i file st).1.encoderCalls = st.encoderCalls := by
  unfold Converter.convert_body
  simp only [hr, Bool.false_eq_true, if_false]
  split
  · simp
  · split
    · simp
    · split
      · simp
      · split
        · simp
        · simp

/-- Frame lemma for one whole loop iteration in a dry run. -/
theorem convert_step_not_run (c : Converter) (hr : c.run = false) (pr : ProbeOutcome)
    (enc : EncOutcome) (count i : Nat) (file : File) (st : LoopState) :
    (Converter.convert_step c pr enc count i file st).1.fs = st.fs
    ∧ (Converter.convert_step c pr enc count i file st).1.time_avg = st.time_avg
    ∧ (Converter.convert_step c pr enc count i file st).1.queueTimes = st.queueTimes
    ∧ (Converter.convert_step c pr enc count i file st).1.queueDurations = st.queueDurations
    ∧ (Converter.convert_step c pr enc count i file st).1.encoderCalls = st.encoderCalls := by
  unfold Converter.convert_step
  simp only [hr, Bool.false_eq_true, if_false]
  split
  · simp
  · split
    · simp
    · simpa [lockExit] using convert_body_not_run c hr pr enc count i file st

/-- Frame lemma for the whole loop in a dry run. -/
theorem convert_loop_not_run (c : Converter) (hr : c.run = false) (count : Nat)
    (files : List (File × ProbeOutcome × EncOutcome)) :
    ∀ (i : Nat) (st : LoopState),
      (Converter.convert_loop c count i st files).1.fs = st.fs
      ∧ (Converter.convert_loop c count i st files).1.time_avg = st.time_avg
      ∧ (Converter.convert_loop c count i st files).1.queueTimes = st.queueTimes
      ∧ (Converter.convert_loop c count i st files).1.queueDurations = st.queueDurations
      ∧ (Converter.convert_loop c count i st files).1.encoderCalls = st.encoderCalls := by
  induction files with
  | nil => intro i st; exact ⟨rfl, rfl, rfl, rfl, rfl⟩
  | cons hd tl ih =>
    intro i st
    obtain ⟨f, pr, enc⟩ := hd
    have hstep := convert_step_not_run c hr pr enc count i f st
    rcases hs : Converter.convert_step c pr enc count i f st with ⟨st', ex⟩
    rw [hs] at hstep
    simp only at hstep
    cases ex with
    | nextFile =>
      have hrec := ih (i + 1) st'
      simp only [Converter.convert_loop, hs]
      exact ⟨hrec.1.trans hstep.1, hrec.2.1.trans hstep.2.1,
        hrec.2.2.1.trans hstep.2.2.1, hrec.2.2.2.1.trans hstep.2.2.2.1,
        hrec.2.2.2.2.trans hstep.2.2.2.2⟩
    | broke => simpa [Converter.convert_loop, hs] using hstep
    | raised => simpa [Converter.convert_loop, hs] using hstep

/-- C10: in dry-run mode (`run` flag false) processing performs no
filesystem mutation and never invokes the encoder — for a single
Candidate (`convert_step`) and for a whole loop (`convert_loop`), the
filesystem, the ETA histories, the queue data and the encoder-call
count all come out unchanged; only messages are appended. -/
theorem C10_dry_run_frame (c : Converter) (hr : c.run = false) :
    (∀ (pr : ProbeOutcome) (enc : EncOutcome) (count i : Nat) (file : File) (st : LoopState),
      (Converter.convert_step c pr enc count i file st).1.fs = st.fs
      ∧ (Converter.convert_step c pr enc count i file st).1.encoderCalls = st.encoderCalls
      ∧ (Converter.convert_step c pr enc count i file st).1.time_avg = st.time_avg)
    ∧ (∀ (count i : Nat) (st : LoopState) (files : List (File × ProbeOutcome × EncOutcome)),
      (Converter.convert_loop c count i st files).1.fs = st.fs
      ∧ (Converter.convert_loop c count i st files).1.encoderCalls = st.encoderCalls) := by
  constructor
  · intro pr enc count i file st
    have h := convert_step_not_run c hr pr enc count i file st
    exact ⟨h.1, h.2.2.2.2, h.2.1⟩
  · intro count i st files
    have h := convert_loop_not_run c hr count files i st
    exact ⟨h.1, h.2.2.2.2⟩

/-- Witness for C10 at a concrete dry-run configuration and input. -/
theorem C10_witness :
    (Converter.convert_step { exCfg with run := false } (.tracks (some hevcTrack))
        (.ok 10 40) 1 0 (File.init { exCfg with run := false } srcA)
        (initState [⟨srcA, 100, 0⟩])).1.fs = (initState [⟨srcA, 100, 0⟩]).fs
    ∧ (Converter.convert_loop { exCfg with run := false } 1 0 (initState [⟨srcA, 100, 0⟩])
        [(File.init { exCfg with run := false } srcA, .tracks (some hevcTrack),
          .ok 10 40)]).1.encoderCalls = (initState [⟨srcA, 100, 0⟩]).encoderCalls := by
  exact ⟨((C10_dry_run_frame _ rfl).1 _ _ _ _ _ _).1,
    ((C10_dry_run_frame _ rfl).2 _ _ _ _).2⟩

/-- C6: lock discipline of one loop iteration.  (1) When the lock marker
already exists at the start of processing, the filesystem is left
exactly as it was — in particular the foreign marker is not deleted.
(2) When moreover the iteration reaches the lock check (its `skip` is
empty or `force` is set), the Candidate is skipped for this run with
only the "lockfile exists" message.  (3) When the marker did not exist
at the start, it does not exist after the iteration either: the
`with`-epilogue deletes it on every exit path iff this iteration created
it (`lock.touch()` happens only under the run flag, and a dry run never
creates it in the first place). -/
theorem C6_lock_scoped_release (c : Converter) (pr : ProbeOutcome) (enc : EncOutcome)
    (count i : Nat) (file : File) (st : LoopState) :
    (fsExists st.fs (file.source.withSuffix "lock") = true →
      (Converter.convert_step c pr enc count i file st).1.fs = st.fs)
    ∧ (fsExists st.fs (file.source.withSuffix "lock") = true →
        (file.skip = .none ∨ c.force = true) →
        Converter.convert_step c pr enc count i file st
          = (st.say (.lockExistsMsg file.name), .nextFile))
    ∧ (fsExists st.fs (file.source.withSuffix "lock") = false →
        fsExists (Converter.convert_step c pr enc count i file st).1.fs
          (file.source.withSuffix "lock") = false) := by
  refine ⟨?_, ?_, ?_⟩
  · intro h
    unfold Converter.convert_step
    split
    · simp
    · simp [h]
  · intro h hsf
    unfold Converter.convert_step
    have hcond : ¬(file.skip.isSet = true ∧ ¬c.force = true) := by
      rcases hsf with h1 | h1 <;> simp [h1, Skip.isSet]
    rw [if_neg hcond]
    simp [h]
  · intro h
    unfold Converter.convert_step
    split
    · simpa using h
    · rw [if_neg (by simp [h])]
      cases hr : c.run
      · have hb := convert_body_not_run c hr pr enc count i file st
        simp only [hr, Bool.false_eq_true, if_false, lockExit]
        rw [hb.1]
        exact h
      · simp [hr, lockExit, fsExists_unlink_self]

/-- Witness for C6: a foreign lock `in/a.lock` makes the iteration skip
`in/a.mkv` without touching the filesystem, and without a pre-existing
lock the iteration (here: a real transcode) leaves no lock behind. -/
theorem C6_witness :
    Converter.convert_step exCfg (.tracks (some hevcTrack)) (.ok 10 40) 1 0
        (File.init exCfg srcA)
        (initState [⟨srcA, 100, 0⟩, ⟨srcA.withSuffix "lock", 0, 0⟩])
      = ((initState [⟨srcA, 100, 0⟩, ⟨srcA.withSuffix "lock", 0, 0⟩]).say
          (.lockExistsMsg (File.init exCfg srcA).name), .nextFile)
    ∧ fsExists (Converter.convert_step exCfg (.tracks (some hevcTrack)) (.ok 10 40) 1 0
          (File.init exCfg srcA) (initState [⟨srcA, 100, 0⟩])).1.fs
        (srcA.withSuffix "lock") = false := by
  exact ⟨(C6_lock_scoped_release exCfg _ _ 1 0 _ _).2.1 (by decide) (Or.inl rfl),
    (C6_lock_scoped_release exCfg _ _ 1 0 _ _).2.2 (by decide)⟩

/-- C1: `check_media_info` matches the probed format against the
preset's target.  For a Candidate that reaches the probe (empty skip, no
prior run decision): under preset `Fast 1080p30` (AVC target) a probed
AVC file is decided skip with the "already requested" reason and a
probed HEVC file is decided run; under preset `H.265 VCN 1080p` a probed
HEVC file is skip and a probed AVC file is run.  Moreover, at the loop
level the AVC/`Fast 1080p30` skip happens for every configuration with
that preset — `force` included, since `check_media_info` never consults
it: the encoder is not invoked and the "already requested" skip message
is printed. -/
theorem C1_skip_matches_preset_target (f : File) (prof : String) (d : Option ℚ)
    (hskip : f.skip = .none) (hrun : f.run = false) :
    (skipOf (f.check_media_info "Fast 1080p30" (.tracks (some ⟨"AVC", prof, d⟩)))
        = some (.alreadyRequested "AVC" prof)
      ∧ runOf (f.check_media_info "Fast 1080p30" (.tracks (some ⟨"AVC", prof, d⟩)))
        = some false)
    ∧ (runOf (f.check_media_info "Fast 1080p30" (.tracks (some ⟨"HEVC", prof, d⟩)))
        = some true
      ∧ skipOf (f.check_media_info "Fast 1080p30" (.tracks (some ⟨"HEVC", prof, d⟩)))
        = some .none)
    ∧ (skipOf (f.check_media_info "H.265 VCN 1080p" (.tracks (some ⟨"HEVC", prof, d⟩)))
        = some (.alreadyRequested "HEVC" prof)
      ∧ runOf (f.check_media_info "H.265 VCN 1080p" (.tracks (some ⟨"HEVC", prof, d⟩)))
        = some false)
    ∧ runOf (f.check_media_info "H.265 VCN 1080p" (.tracks (some ⟨"AVC", prof, d⟩)))
        = some true
    ∧ (∀ (c : Converter) (enc : EncOutcome) (count i : Nat) (st : LoopState),
        c.preset = "Fast 1080p30" →
        fsExists st.fs (f.source.withSuffix "lock") = false →
        fsExists st.fs f.dest = false →
        f.dest ≠ f.source.withSuffix "lock" →
        (Converter.convert_step c (.tracks (some ⟨"AVC", prof, d⟩)) enc count i f st).1.encoderCalls
            = st.encoderCalls
          ∧ Msg.skipMsg (.alreadyRequested "AVC" prof)
              ∈ (Converter.convert_step c (.tracks (some ⟨"AVC", prof, d⟩)) enc count i f st).1.msgs) := by
  refine ⟨⟨?_, ?_⟩, ⟨?_, ?_⟩, ⟨?_, ?_⟩, ?_, ?_⟩
  · simp [File.check_media_info, hskip, hrun, Skip.isSet, skipOf,
      apply_ite File.run, apply_ite File.skip, apply_ite File.format, apply_ite File.profile]
  · simp [File.check_media_info, hskip, hrun, Skip.isSet, runOf,
      apply_ite File.run, apply_ite File.skip, apply_ite File.format, apply_ite File.profile]
  · simp [File.check_media_info, hskip, hrun, Skip.isSet, runOf,
      apply_ite File.run, apply_ite File.skip, apply_ite File.format, apply_ite File.profile]
  · simp [File.check_media_info, hskip, hrun, Skip.isSet, skipOf,
      apply_ite File.run, apply_ite File.skip, apply_ite File.format, apply_ite File.profile]
  · simp [File.check_media_info, hskip, hrun, Skip.isSet, skipOf,
      apply_ite File.run, apply_ite File.skip, apply_ite File.format, apply_ite File.profile]
  · simp [File.check_media_info, hskip, hrun, Skip.isSet, runOf,
      apply_ite File.run, apply_ite File.skip, apply_ite File.format, apply_ite File.profile]
  · simp [File.check_media_info, hskip, hrun, Skip.isSet, runOf,
      apply_ite File.run, apply_ite File.skip, apply_ite File.format, apply_ite File.profile]
  · intro c enc count i st hp hlock hdest hne
    cases hr : c.run <;>
      simp [Converter.convert_step, Converter.convert_body, hskip, hrun, hlock, hdest, hp, hr,
        File.check_output_exists, File.check_media_info, Skip.isSet, lockExit,
        fsExists_touch_ne _ _ _ hne,
        apply_ite File.run, apply_ite File.skip, apply_ite File.format, apply_ite File.profile]

/-- Witness for C1: `in/a.mkv` probes as AVC under `Fast 1080p30` with
`force` set — decided skip ("already requested"), encoder not invoked. -/
theorem C1_witness :
    skipOf ((File.init exCfgForce srcA).check_media_info "Fast 1080p30"
        (.tracks (some avcTrack))) = some (.alreadyRequested "AVC" "Main@L4")
    ∧ (Converter.convert_step exCfgForce (.tracks (some avcTrack)) (.ok 10 40) 1 0
        (File.init exCfgForce srcA) (initState [⟨srcA, 100, 0⟩])).1.encoderCalls
      = (initState [⟨srcA, 100, 0⟩]).encoderCalls := by
  refine ⟨?_, ?_⟩
  · exact (C1_skip_matches_preset_target (File.init exCfgForce srcA) "Main@L4"
      (some 600000) rfl rfl).1.1
  · exact ((C1_skip_matches_preset_target (File.init exCfgForce srcA) "Main@L4"
      (some 600000) rfl rfl).2.2.2.2 exCfgForce (.ok 10 40) 1 0
      (initState [⟨srcA, 100, 0⟩]) rfl (by decide) (by decide) (by decide)).1

/-- Paths in different directories are different. -/
theorem ne_of_dir_ne {p : FPath} {ws st ex : String} (h : ws ≠ p.dir) :
    p ≠ (⟨ws, st, ex⟩ : FPath) := by
  intro hc
  exact h (by rw [hc])

/-- C4 amended: behavior of the encoder-failure paths for a Candidate
that reaches the encoder invocation.  On a non-zero encoder exit
(`subprocess.CalledProcessError`), any partially-written destination
file is deleted, the failure is reported with the encoder's return code
and stderr, and the loop continues to the next Candidate.  On any
*other* exception from the invocation (e.g. a process-launch error), the
partially-written destination is likewise deleted, but the exception is
re-raised (`if not isinstance(e, CalledProcessError): raise e`): the
iteration exits by unwind and the batch aborts with no further
Candidates processed. -/
theorem C4_amended_encoder_failure (c : Converter) (t : Track) (f : File) (st : LoopState)
    (count i : Nat) (rc : Int) (stderr : String) (wrote : Bool) (outSize : Nat)
    (hr : c.run = true) (hskip : f.skip = .none) (hrun : f.run = false)
    (hfmt : ¬((c.preset = "H.265 VCN 1080p" ∧ t.format = "HEVC")
      ∨ (c.preset = "Fast 1080p30" ∧ t.format = "AVC")))
    (hlock : fsExists st.fs (f.source.withSuffix "lock") = false)
    (hdest : fsExists st.fs f.dest = false)
    (hpo : pathsOk c f = true) :
    ((Converter.convert_step c (.tracks (some t))
        (.calledProcessError rc stderr wrote outSize) count i f st).2 = .nextFile
      ∧ fsExists (Converter.convert_step c (.tracks (some t))
          (.calledProcessError rc stderr wrote outSize) count i f st).1.fs f.dest = false
      ∧ Msg.encoderFailed rc stderr
          ∈ (Converter.convert_step c (.tracks (some t))
              (.calledProcessError rc stderr wrote outSize) count i f st).1.msgs)
    ∧ ((Converter.convert_step c (.tracks (some t))
          (.otherException wrote outSize) count i f st).2 = .raised
      ∧ fsExists (Converter.convert_step c (.tracks (some t))
          (.otherException wrote outSize) count i f st).1.fs f.dest = false
      ∧ ∀ rest, Converter.convert_loop c count i st
            ((f, .tracks (some t), .otherException wrote outSize) :: rest)
          = ((Converter.convert_step c (.tracks (some t))
              (.otherException wrote outSize) count i f st).1, .raisedExit)) := by
  have hpo' := hpo
  simp only [pathsOk, Bool.and_eq_true, decide_eq_true_eq] at hpo'
  obtain ⟨⟨⟨hds, hls⟩, hld⟩, hws⟩ := hpo'
  have hdl : f.dest ≠ f.source.withSuffix "lock" := Ne.symm hld
  have hraised : (Converter.convert_step c (.tracks (some t))
      (.otherException wrote outSize) count i f st).2 = .raised := by
    cases hw : c.workspace with
    | none =>
      cases wrote <;>
        simp [Converter.convert_step, Converter.convert_body, File.check_output_exists,
          File.check_media_info, Skip.isSet, lockExit, hr, hskip, hrun, hlock, hdest, hw, hfmt,
          hdl, fsExists_touch_ne, fsExists_write_self, fsExists_write_ne, fsExists_unlink_self,
          fsExists_unlink_ne, fsExists_copy2_ne,
          apply_ite File.run, apply_ite File.skip, apply_ite File.format,
          apply_ite File.profile, apply_ite File.dest, apply_ite File.source]
    | some ws =>
      rw [hw] at hws
      simp only [Bool.and_eq_true, decide_eq_true_eq] at hws
      have htmp : ∀ stm exn : String, f.dest ≠ (⟨ws, stm, exn⟩ : FPath) :=
        fun _ _ => ne_of_dir_ne hws.2
      cases wrote <;>
        simp [Converter.convert_step, Converter.convert_body, File.check_output_exists,
          File.check_media_info, Skip.isSet, lockExit, hr, hskip, hrun, hlock, hdest, hw, hfmt,
          hdl, htmp, fsExists_touch_ne, fsExists_write_self, fsExists_write_ne,
          fsExists_unlink_self, fsExists_unlink_ne, fsExists_copy2_ne,
          apply_ite File.run, apply_ite File.skip, apply_ite File.format,
          apply_ite File.profile, apply_ite File.dest, apply_ite File.source]
  refine ⟨⟨?_, ?_, ?_⟩, hraised, ?_, ?_⟩
  · cases hw : c.workspace with
    | none =>
      cases wrote <;>
        simp [Converter.convert_step, Converter.convert_body, File.check_output_exists,
          File.check_media_info, Skip.isSet, lockExit, hr, hskip, hrun, hlock, hdest, hw, hfmt,
          hdl, fsExists_touch_ne, fsExists_write_self, fsExists_write_ne, fsExists_unlink_self,
          fsExists_unlink_ne, fsExists_copy2_ne,
          apply_ite File.run, apply_ite File.skip, apply_ite File.format,
          apply_ite File.profile, apply_ite File.dest, apply_ite File.source]
    | some ws =>
      rw [hw] at hws
      simp only [Bool.and_eq_true, decide_eq_true_eq] at hws
      have htmp : ∀ stm exn : String, f.dest ≠ (⟨ws, stm, exn⟩ : FPath) :=
        fun _ _ => ne_of_dir_ne hws.2
      cases wrote <;>
        simp [Converter.convert_step, Converter.convert_body, File.check_output_exists,
          File.check_media_info, Skip.isSet, lockExit, hr, hskip, hrun, hlock, hdest, hw, hfmt,
          hdl, htmp, fsExists_touch_ne, fsExists_write_self, fsExists_write_ne,
          fsExists_unlink_self, fsExists_unlink_ne, fsExists_copy2_ne,
          apply_ite File.run, apply_ite File.skip, apply_ite File.format,
          apply_ite File.profile, apply_ite File.dest, apply_ite File.source]
  · cases hw : c.workspace with
    | none =>
      cases wrote <;>
        simp [Converter.convert_step, Converter.convert_body, File.check_output_exists,
          File.check_media_info, Skip.isSet, lockExit, hr, hskip, hrun, hlock, hdest, hw, hfmt,
          hdl, fsExists_touch_ne, fsExists_write_self, fsExists_write_ne, fsExists_unlink_self,
          fsExists_unlink_ne, fsExists_copy2_ne,
          apply_ite File.run, apply_ite File.skip, apply_ite File.format,
          apply_ite File.profile, apply_ite File.dest, apply_ite File.source]
    | some ws =>
      rw [hw] at hws
      simp only [Bool.and_eq_true, decide_eq_true_eq] at hws
      have htmp : ∀ stm exn : String, f.dest ≠ (⟨ws, stm, exn⟩ : FPath) :=
        fun _ _ => ne_of_dir_ne hws.2
      cases wrote <;>
        simp [Converter.convert_step, Converter.convert_body, File.check_output_exists,
          File.check_media_info, Skip.isSet, lockExit, hr, hskip, hrun, hlock, hdest, hw, hfmt,
          hdl, htmp, fsExists_touch_ne, fsExists_write_self, fsExists_write_ne,
          fsExists_unlink_self, fsExists_unlink_ne, fsExists_copy2_ne,
          apply_ite File.run, apply_ite File.skip, apply_ite File.format,
          apply_ite File.profile, apply_ite File.dest, apply_ite File.source]
  · cases hw : c.workspace with
    | none =>
      cases wrote <;>
        simp [Converter.convert_step, Converter.convert_body, File.check_output_exists,
          File.check_media_info, Skip.isSet, lockExit, hr, hskip, hrun, hlock, hdest, hw, hfmt,
          hdl, fsExists_touch_ne, fsExists_write_self, fsExists_write_ne, fsExists_unlink_self,
          fsExists_unlink_ne, fsExists_copy2_ne,
          apply_ite File.run, apply_ite File.skip, apply_ite File.format,
          apply_ite File.profile, apply_ite File.dest, apply_ite File.source]
    | some ws =>
      rw [hw] at hws
      simp only [Bool.and_eq_true, decide_eq_true_eq] at hws
      have htmp : ∀ stm exn : String, f.dest ≠ (⟨ws, stm, exn⟩ : FPath) :=
        fun _ _ => ne_of_dir_ne hws.2
      cases wrote <;>
        simp [Converter.convert_step, Converter.convert_body, File.check_output_exists,
          File.check_media_info, Skip.isSet, lockExit, hr, hskip, hrun, hlock, hdest, hw, hfmt,
          hdl, htmp, fsExists_touch_ne, fsExists_write_self, fsExists_write_ne,
          fsExists_unlink_self, fsExists_unlink_ne, fsExists_copy2_ne,
          apply_ite File.run, apply_ite File.skip, apply_ite File.format,
          apply_ite File.profile, apply_ite File.dest, apply_ite File.source]
  · cases hw : c.workspace with
    | none =>
      cases wrote <;>
        simp [Converter.convert_step, Converter.convert_body, File.check_output_exists,
          File.check_media_info, Skip.isSet, lockExit, hr, hskip, hrun, hlock, hdest, hw, hfmt,
          hdl, fsExists_touch_ne, fsExists_write_self, fsExists_write_ne, fsExists_unlink_self,
          fsExists_unlink_ne, fsExists_copy2_ne,
          apply_ite File.run, apply_ite File.skip, apply_ite File.format,
          apply_ite File.profile, apply_ite File.dest, apply_ite File.source]
    | some ws =>
      rw [hw] at hws
      simp only [Bool.and_eq_true, decide_eq_true_eq] at hws
      have htmp : ∀ stm exn : String, f.dest ≠ (⟨ws, stm, exn⟩ : FPath) :=
        fun _ _ => ne_of_dir_ne hws.2
      cases wrote <;>
        simp [Converter.convert_step, Converter.convert_body, File.check_output_exists,
          File.check_media_info, Skip.isSet, lockExit, hr, hskip, hrun, hlock, hdest, hw, hfmt,
          hdl, htmp, fsExists_touch_ne, fsExists_write_self, fsExists_write_ne,
          fsExists_unlink_self, fsExists_unlink_ne, fsExists_copy2_ne,
          apply_ite File.run, apply_ite File.skip, apply_ite File.format,
          apply_ite File.profile, apply_ite File.dest, apply_ite File.source]
  · intro rest
    rcases hcs : Converter.convert_step c (.tracks (some t))
        (.otherException wrote outSize) count i f st with ⟨st', ex⟩
    rw [hcs] at hraised
    simp only at hraised
    subst hraised
    simp [Converter.convert_loop, hcs]

/-- Witness for C4 (amended): `in/a.mkv` reaches the encoder; a
`CalledProcessError` is reported and the loop moves on, while any other
exception leaves no destination file behind but unwinds. -/
theorem C4_witness :
    (Converter.convert_step exCfg (.tracks (some hevcTrack))
        (.calledProcessError 1 "boom" true 7) 1 0 (File.init exCfg srcA)
        (initState [⟨srcA, 100, 0⟩])).2 = .nextFile
    ∧ Msg.encoderFailed 1 "boom" ∈ (Converter.convert_step exCfg (.tracks (some hevcTrack))
        (.calledProcessError 1 "boom" true 7) 1 0 (File.init exCfg srcA)
        (initState [⟨srcA, 100, 0⟩])).1.msgs
    ∧ fsExists (Converter.convert_step exCfg (.tracks (some hevcTrack))
        (.otherException true 7) 1 0 (File.init exCfg srcA)
        (initState [⟨srcA, 100, 0⟩])).1.fs (File.init exCfg srcA).dest = false := by
  have h := C4_amended_encoder_failure exCfg hevcTrack (File.init exCfg srcA)
    (initState [⟨srcA, 100, 0⟩]) 1 0 1 "boom" true 7 rfl rfl rfl (by decide) (by decide)
    (by decide) (by decide)
  exact ⟨h.1.1, h.1.2.2, h.2.2.1⟩

/-- C5: when the stop-if-larger policy is enabled and a completed
transcode's output is strictly larger than the source, the iteration
deletes the destination, leaves the source in place, exits the loop by
`break`, and the batch terminates with no further Candidates processed
(the rest of the file list never contributes to the result). -/
theorem C5_stop_larger_terminates (c : Converter) (t : Track) (f : File) (st : LoopState)
    (count i : Nat) (elapsed : ℚ) (outSize : Nat)
    (hr : c.run = true) (hsl : c.stop_larger = true)
    (hskip : f.skip = .none) (hrun : f.run = false)
    (hfmt : ¬((c.preset = "H.265 VCN 1080p" ∧ t.format = "HEVC")
      ∨ (c.preset = "Fast 1080p30" ∧ t.format = "AVC")))
    (hlock : fsExists st.fs (f.source.withSuffix "lock") = false)
    (hdest : fsExists st.fs f.dest = false)
    (hsrc : fsExists st.fs f.source = true)
    (hpo : pathsOk c f = true)
    (hsize : fsStatSize st.fs f.source < outSize) :
    (Converter.convert_step c (.tracks (some t)) (.ok elapsed outSize) count i f st).2 = .broke
    ∧ fsExists (Converter.convert_step c (.tracks (some t))
        (.ok elapsed outSize) count i f st).1.fs f.dest = false
    ∧ fsExists (Converter.convert_step c (.tracks (some t))
        (.ok elapsed outSize) count i f st).1.fs f.source = true
    ∧ ∀ rest, Converter.convert_loop c count i st
          ((f, .tracks (some t), .ok elapsed outSize) :: rest)
        = ((Converter.convert_step c (.tracks (some t))
            (.ok elapsed outSize) count i f st).1, .stopped) := by
  have hpo' := hpo
  simp only [pathsOk, Bool.and_eq_true, decide_eq_true_eq] at hpo'
  obtain ⟨⟨⟨hds, hls⟩, hld⟩, hws⟩ := hpo'
  have hdl : f.dest ≠ f.source.withSuffix "lock" := Ne.symm hld
  have hsd : f.source ≠ f.dest := Ne.symm hds
  have hsl2 : f.source ≠ f.source.withSuffix "lock" := Ne.symm hls
  have hbroke : (Converter.convert_step c (.tracks (some t))
      (.ok elapsed outSize) count i f st).2 = .broke := by
    cases hw : c.workspace with
    | none =>
      simp [Converter.convert_step, Converter.convert_body, File.check_output_exists,
        File.check_media_info, Skip.isSet, lockExit, hr, hsl, hskip, hrun, hlock, hdest, hsrc,
        hw, hfmt, hdl, hsd, hsl2, hsize, fsExists_touch_ne, fsExists_write_self,
        fsExists_write_ne, fsExists_unlink_self, fsExists_unlink_ne, fsExists_copy2_ne,
        fsExists_copy2_self, fsStatSize_touch_ne, fsStatSize_write_self, fsStatSize_write_ne,
        fsStatSize_unlink_ne, fsStatSize_copy2_self, fsStatSize_copy2_ne,
        apply_ite File.run, apply_ite File.skip, apply_ite File.format,
        apply_ite File.profile, apply_ite File.dest, apply_ite File.source]
    | some ws =>
      rw [hw] at hws
      simp only [Bool.and_eq_true, decide_eq_true_eq] at hws
      have htmpd : ∀ stm exn : String, f.dest ≠ (⟨ws, stm, exn⟩ : FPath) :=
        fun _ _ => ne_of_dir_ne hws.2
      have htmps : ∀ stm exn : String, f.source ≠ (⟨ws, stm, exn⟩ : FPath) :=
        fun _ _ => ne_of_dir_ne hws.1
      simp [Converter.convert_step, Converter.convert_body, File.check_output_exists,
        File.check_media_info, Skip.isSet, lockExit, hr, hsl, hskip, hrun, hlock, hdest, hsrc,
        hw, hfmt, hdl, hsd, hsl2, hsize, htmpd, htmps, fsExists_touch_ne, fsExists_write_self,
        fsExists_write_ne, fsExists_unlink_self, fsExists_unlink_ne, fsExists_copy2_ne,
        fsExists_copy2_self, fsStatSize_touch_ne, fsStatSize_write_self, fsStatSize_write_ne,
        fsStatSize_unlink_ne, fsStatSize_copy2_self, fsStatSize_copy2_ne,
        apply_ite File.run, apply_ite File.skip, apply_ite File.format,
        apply_ite File.profile, apply_ite File.dest, apply_ite File.source]
  refine ⟨hbroke, ?_, ?_, ?_⟩
  · cases hw : c.workspace with
    | none =>
      simp [Converter.convert_step, Converter.convert_body, File.check_output_exists,
        File.check_media_info, Skip.isSet, lockExit, hr, hsl, hskip, hrun, hlock, hdest, hsrc,
        hw, hfmt, hdl, hsd, hsl2, hsize, fsExists_touch_ne, fsExists_write_self,
        fsExists_write_ne, fsExists_unlink_self, fsExists_unlink_ne, fsExists_copy2_ne,
        fsExists_copy2_self, fsStatSize_touch_ne, fsStatSize_write_self, fsStatSize_write_ne,
        fsStatSize_unlink_ne, fsStatSize_copy2_self, fsStatSize_copy2_ne,
        apply_ite File.run, apply_ite File.skip, apply_ite File.format,
        apply_ite File.profile, apply_ite File.dest, apply_ite File.source]
    | some ws =>
      rw [hw] at hws
      simp only [Bool.and_eq_true, decide_eq_true_eq] at hws
      have htmpd : ∀ stm exn : String, f.dest ≠ (⟨ws, stm, exn⟩ : FPath) :=
        fun _ _ => ne_of_dir_ne hws.2
      have htmps : ∀ stm exn : String, f.source ≠ (⟨ws, stm, exn⟩ : FPath) :=
        fun _ _ => ne_of_dir_ne hws.1
      simp [Converter.convert_step, Converter.convert_body, File.check_output_exists,
        File.check_media_info, Skip.isSet, lockExit, hr, hsl, hskip, hrun, hlock, hdest, hsrc,
        hw, hfmt, hdl, hsd, hsl2, hsize, htmpd, htmps, fsExists_touch_ne, fsExists_write_self,
        fsExists_write_ne, fsExists_unlink_self, fsExists_unlink_ne, fsExists_copy2_ne,
        fsExists_copy2_self, fsStatSize_touch_ne, fsStatSize_write_self, fsStatSize_write_ne,
        fsStatSize_unlink_ne, fsStatSize_copy2_self, fsStatSize_copy2_ne,
        apply_ite File.run, apply_ite File.skip, apply_ite File.format,
        apply_ite File.profile, apply_ite File.dest, apply_ite File.source]
  · cases hw : c.workspace with
    | none =>
      simp [Converter.convert_step, Converter.convert_body, File.check_output_exists,
        File.check_media_info, Skip.isSet, lockExit, hr, hsl, hskip, hrun, hlock, hdest, hsrc,
        hw, hfmt, hdl, hsd, hsl2, hsize, fsExists_touch_ne, fsExists_write_self,
        fsExists_write_ne, fsExists_unlink_self, fsExists_unlink_ne, fsExists_copy2_ne,
        fsExists_copy2_self, fsStatSize_touch_ne, fsStatSize_write_self, fsStatSize_write_ne,
        fsStatSize_unlink_ne, fsStatSize_copy2_self, fsStatSize_copy2_ne,
        apply_ite File.run, apply_ite File.skip, apply_ite File.format,
        apply_ite File.profile, apply_ite File.dest, apply_ite File.source]
    | some ws =>
      rw [hw] at hws
      simp only [Bool.and_eq_true, decide_eq_true_eq] at hws
      have htmpd : ∀ stm exn : String, f.dest ≠ (⟨ws, stm, exn⟩ : FPath) :=
        fun _ _ => ne_of_dir_ne hws.2
      have htmps : ∀ stm exn : String, f.source ≠ (⟨ws, stm, exn⟩ : FPath) :=
        fun _ _ => ne_of_dir_ne hws.1
      simp [Converter.convert_step, Converter.convert_body, File.check_output_exists,
        File.check_media_info, Skip.isSet, lockExit, hr, hsl, hskip, hrun, hlock, hdest, hsrc,
        hw, hfmt, hdl, hsd, hsl2, hsize, htmpd, htmps, fsExists_touch_ne, fsExists_write_self,
        fsExists_write_ne, fsExists_unlink_self, fsExists_unlink_ne, fsExists_copy2_ne,
        fsExists_copy2_self, fsStatSize_touch_ne, fsStatSize_write_self, fsStatSize_write_ne,
        fsStatSize_unlink_ne, fsStatSize_copy2_self, fsStatSize_copy2_ne,
        apply_ite File.run, apply_ite File.skip, apply_ite File.format,
        apply_ite File.profile, apply_ite File.dest, apply_ite File.source]
  · intro rest
    rcases hcs : Converter.convert_step c (.tracks (some t))
        (.ok elapsed outSize) count i f st with ⟨st', ex⟩
    rw [hcs] at hbroke
    simp only at hbroke
    subst hbroke
    simp [Converter.convert_loop, hcs]

/-- Witness for C5: `in/a.mkv` (100 bytes) transcodes to 110 bytes with
`stop_larger` enabled — destination deleted, source kept, batch stopped
before `in/b.mkv`. -/
theorem C5_witness :
    (Converter.convert_step exCfgStop (.tracks (some hevcTrack)) (.ok 10 110) 2 0
        (File.init exCfgStop srcA) (initState [⟨srcA, 100, 0⟩, ⟨srcB, 100, 0⟩])).2 = .broke
    ∧ fsExists (Converter.convert_step exCfgStop (.tracks (some hevcTrack)) (.ok 10 110) 2 0
        (File.init exCfgStop srcA)
        (initState [⟨srcA, 100, 0⟩, ⟨srcB, 100, 0⟩])).1.fs (File.init exCfgStop srcA).dest = false
    ∧ fsExists (Converter.convert_step exCfgStop (.tracks (some hevcTrack)) (.ok 10 110) 2 0
        (File.init exCfgStop srcA)
        (initState [⟨srcA, 100, 0⟩, ⟨srcB, 100, 0⟩])).1.fs srcA = true
    ∧ Converter.convert_loop exCfgStop 2 0 (initState [⟨srcA, 100, 0⟩, ⟨srcB, 100, 0⟩])
          [(File.init exCfgStop srcA, .tracks (some hevcTrack), .ok 10 110),
           (File.init exCfgStop srcB, .tracks (some hevcTrack), .ok 10 90)]
        = ((Converter.convert_step exCfgStop (.tracks (some hevcTrack)) (.ok 10 110) 2 0
            (File.init exCfgStop srcA) (initState [⟨srcA, 100, 0⟩, ⟨srcB, 100, 0⟩])).1,
          .stopped) := by
  have h := C5_stop_larger_terminates exCfgStop hevcTrack (File.init exCfgStop srcA)
    (initState [⟨srcA, 100, 0⟩, ⟨srcB, 100, 0⟩]) 2 0 10 110 rfl rfl rfl rfl (by decide)
    (by decide) (by decide) (by decide) (by decide) (by decide)
  exact ⟨h.1, h.2.1, h.2.2.1,
    h.2.2.2 [(File.init exCfgStop srcB, .tracks (some hevcTrack), .ok 10 90)]⟩

/-- C8: an ETA is displayed only when at least 2 historical samples exist
in the relevant scope — the queue ETA message is non-empty exactly when
at least two global elapsed times have been recorded, and the per-item
ETA exactly when the current file's duration bucket holds at least two
recorded elapsed times; with one or zero samples in scope no ETA is
shown. -/
theorem C8_eta_needs_two_samples :
    ∀ (ta : TimeAvg) (qTimes qDurations : List ℚ) (count i : Nat) (d : ℤ),
      ((queueEta ta qTimes qDurations count i).isSome = true ↔ 2 ≤ qTimes.length)
      ∧ ((itemEta ta d).isSome = true ↔ 2 ≤ ((ta.lookup d).getD []).length) := by
  intro ta qTimes qDurations count i d
  constructor
  · unfold queueEta
    split <;> simp_all
  · unfold itemEta
    split <;> simp_all

/-- C9 counterexample: `calc_time` renders 3661 seconds (1 hour, 1
minute, 1 second) as `"01H 61M"` — no days unit exists, minutes is the
total `3661 // 60 = 61` rather than the remainder of the hour, and
zero-valued leading units are not omitted — whereas the formatter the
claim describes would render `"1H 1M"`. -/
theorem C9_counterexample :
    Converter.calc_time 3661 = "01H 61M" ∧ specCalcTime 3661 = "1H 1M"
      ∧ Converter.calc_time 3661 ≠ specCalcTime 3661 := by
  refine ⟨?_, ?_, ?_⟩ <;> decide

/-- C9 amended: for every nonnegative number of seconds, `calc_time`
truncates to an integer and renders `seconds // 3600` as an hours field
and `seconds // 60` (total minutes, not the remainder of the hour) as a
minutes field, each zero-padded to two digits, with no days unit and
with both fields always shown. -/
theorem C9_amended_calc_time (s : Nat) :
    Converter.calc_time (s : ℚ)
      = pad2 ((s : ℤ).fdiv 3600) ++ "H " ++ pad2 ((s : ℤ).fdiv 60) ++ "M" := by
  unfold Converter.calc_time intTrunc
  rw [if_pos (by positivity)]
  norm_num

/-- C7 counterexample: lock-marker creation does not have exclusive
create-if-not-exists semantics.  `LockFile.touch` calls `Path.touch()`
with the default `exist_ok=True`: touching the derived lock path when a
file already exists there succeeds (returns `.ok`, raising nothing)
instead of failing, so an acquire attempt interleaved after another's
touch still "succeeds". -/
theorem C7_counterexample :
    fsExists [] (srcA.withSuffix "lock") = false
      ∧ pathTouch true [] (srcA.withSuffix "lock")
          = .ok [⟨srcA.withSuffix "lock", 0, 0⟩]
      ∧ pathTouch true [⟨srcA.withSuffix "lock", 0, 0⟩] (srcA.withSuffix "lock")
          = .ok [⟨srcA.withSuffix "lock", 0, 0⟩] := by
  exact ⟨by decide, rfl, rfl⟩

/-- C7 amended: `LockFile.touch` (i.e. `Path.touch` with the default
`exist_ok=True`) never fails — whether or not a file already exists at
the derived lock path — and its effect is `fsTouch`; after a completed
touch, `exists()` observes `true`, so only the separate `exists()` check
performed before touching (not creation itself) can make a later acquire
attempt on the same lock path stand down. -/
theorem C7_amended_touch_not_exclusive (fs : FS) (p : FPath) :
    pathTouch true fs p = .ok (fsTouch fs p)
      ∧ fsExists (fsTouch fs p) p = true := by
  constructor
  · unfold pathTouch fsTouch
    split <;> rfl
  · exact fsExists_touch_self fs p

/-- C2 (code evaluation at the failing input): destination `in/a.mp4`
exists, `force` is true, the run flag is true, and the source probes as
HEVC under the AVC-targeting preset `Fast 1080p30` — the claim (and the
CLI help for `-f`) says the encoder is invoked and the destination
overwritten, but the full pipeline never invokes the encoder
(`encoderCalls = 0`) and leaves the destination untouched at its old
size 50: `check_media_info` returns early on the non-empty informational
"Overwriting" skip note, so `File.run` stays false. -/
theorem C2_code_evaluation :
    Converter.convert exCfgForce
        [⟨srcA, 100, 0⟩, ⟨srcA.withSuffix "mp4", 50, 0⟩] hevcProbe (fun _ => .ok 10 40)
      = .ok ({ fs := [⟨srcA, 100, 0⟩, ⟨srcA.withSuffix "mp4", 50, 0⟩],
               time_avg := [], queueTimes := [], queueDurations := [],
               msgs := [.checking 1 1 "a.mkv" Option.none,
                        .skipMsg (.overwriting "a.mp4")],
               encoderCalls := 0 }, .finished) := by
  rfl

/-- C3 (code evaluation at the failing input): the scanner ignores the
configured extension set and the configured exclude patterns.  First
conjunct: `get_files` is independent of `extensions` and `exclude` (it
globs a hardcoded six-extension list and never consults `exclude`).
Second conjunct: with `extensions = ["mp4"]` and an exclude pattern
that names `in/sub/video.avi` exactly, the scan emits `in/sub/video.avi`
(which matches the exclude pattern) and omits `in/movie.mp4` (whose
extension is the configured one). -/
theorem C3_code_evaluation :
    (∀ (c : Converter) (fs : FS) (probe : FPath → ProbeOutcome) (e1 e2 x1 x2 : List String),
        Converter.get_files { c with extensions := e1, exclude := x1 } fs probe
          = Converter.get_files { c with extensions := e2, exclude := x2 } fs probe)
    ∧ Converter.get_files exCfgScan
        [⟨⟨"in", "movie", "mp4"⟩, 10, 0⟩, ⟨⟨"in/sub", "video", "avi"⟩, 20, 0⟩] hevcProbe
      = .ok [File.init exCfgScan ⟨"in/sub", "video", "avi"⟩] := by
  constructor
  · intro c fs probe e1 e2 x1 x2
    cases c
    rfl
  · decide

/-- C4 counterexample: the encoder invocation for `in/a.mkv` raises a
non-`CalledProcessError` exception (e.g. a process-launch error); the
claim says the batch continues to the next Candidate, but the exception
propagates (`raisedExit`): the loop ends after one encoder call and
`in/b.mkv` is never processed (no message for it). -/
theorem C4_counterexample :
    Converter.convert exCfg [⟨srcA, 100, 0⟩, ⟨srcB, 100, 0⟩] hevcProbe
        (fun p => if p.stem = "a" then .otherException false 0 else .ok 10 40)
      = .ok ({ fs := [⟨srcA, 100, 0⟩, ⟨srcB, 100, 0⟩],
               time_avg := [], queueTimes := [], queueDurations := [],
               msgs := [.checking 1 2 "a.mkv" Option.none,
                        .transcoding "a.mkv" "a.mp4" Option.none],
               encoderCalls := 1 }, .raisedExit) := by
  with_unfolding_all rfl

end CVFP
